import Mathlib

set_option autoImplicit false

/-!
Verification development for the iocp-traits repository: a shallow embedding
of `src/container_of.rs` (offset-recovery pointer arithmetic) and
`src/iocp.rs` (completion anchor `EventState`, hand-off guard `Dispatch`,
handler dispatch / recovery / completion), with theorems checking the design
document against the embedded code.

Modelling conventions:
* machine addresses (`usize`) are `Nat`;
* a Rust panic / failed assertion / `Option::unwrap` on `None` is an
  `Except.error` carrying the corresponding message;
* the heap of live anchors is a map from an anchor's base address to its
  `EventState` value;
* invoking a handler's `complete()` body is recorded by appending the
  consumed handler to a completion log, so that "completion logic ran
  exactly once with payload p" is a statement about that log.
-/

namespace IocpTraits

/-- Layout data of a `ContainerOf<T>` instance: `size` is
`size_of::<Self>()`, `fieldOff` is the byte offset at which the `member()`
accessor points inside the container, `memberSize` is `size_of::<T>()` and
`align` is `align_of::<Self>()`. For the repository's one instance
(`EventState: ContainerOf<OVERLAPPED>`), `fieldOff` is the offset of the
`overlapped` field. -/
structure TypeLayout where
  size : Nat
  fieldOff : Nat
  memberSize : Nat
  align : Nat
  deriving DecidableEq, Repr

/-- Embedding of `ContainerOf::member_offset` (src/src/container_of.rs lines
12-27). The dummy container sits at `NonNull::dangling()`, whose address is
`align_of::<Self>()`, so `container_start_addr = L.align`,
`member_start_addr = L.align + L.fieldOff`,
`container_end_addr = L.align + L.size` and
`member_end_addr = L.align + L.fieldOff + L.memberSize`. The two `assert!`
calls become `Except.error` results, checked in source order. -/
def member_offset (L : TypeLayout) : Except String Nat :=
  if L.align ≤ L.align + L.fieldOff then
    if L.align + L.fieldOff + L.memberSize ≤ L.align + L.size then
      Except.ok ((L.align + L.fieldOff) - L.align)
    else
      Except.error "assertion failed: container_end_addr >= member_end_addr"
  else
    Except.error "assertion failed: container_start_addr <= member_start_addr"

/-- Embedding of `ContainerOf::container_of_ptr` (src/src/container_of.rs
lines 30-40): compute `member_offset`, assert `member_addr > member_offset`,
subtract, then assert the resulting container address is a multiple of
`align_of::<Self>()`. -/
def container_of_ptr (L : TypeLayout) (memberAddr : Nat) : Except String Nat :=
  match member_offset L with
  | Except.error e => Except.error e
  | Except.ok moff =>
    if moff < memberAddr then
      if (memberAddr - moff) % L.align = 0 then
        Except.ok (memberAddr - moff)
      else
        Except.error "assertion failed: container_addr % container_alignment == 0"
    else
      Except.error "assertion failed: member_addr > member_offset"

/-- Fatality predicate: the computation took the panic / failed-assert path. -/
def isFatal {α : Type} : Except String α → Bool
  | Except.error _ => true
  | Except.ok _ => false

/-- A layout whose member range fits inside the container range; this is
exactly what `member_offset` asserts. -/
abbrev TypeLayout.wf (L : TypeLayout) : Prop :=
  L.fieldOff + L.memberSize ≤ L.size

theorem member_offset_ok (L : TypeLayout) (hv : L.wf) :
    member_offset L = Except.ok L.fieldOff := by
  have hv' : L.fieldOff + L.memberSize ≤ L.size := hv
  unfold member_offset
  rw [if_pos (Nat.le_add_right _ _), if_pos (by omega)]
  rw [Nat.add_sub_cancel_left]

theorem container_of_ptr_roundtrip (L : TypeLayout) (a : Nat)
    (hv : L.wf) (ha : 0 < a) (hal : a % L.align = 0) :
    container_of_ptr L (a + L.fieldOff) = Except.ok a := by
  unfold container_of_ptr
  simp only [member_offset_ok L hv]
  rw [if_pos (by omega)]
  rw [Nat.add_sub_cancel]
  rw [if_pos hal]

/-- Embedding of the phony `winapi::OVERLAPPED` record (src/src/main.rs):
two integer fields, never interpreted by the core, `#[derive(Default)]`
initialising both to zero. `_foo` is an `i64` and `_bar` an `i32`; the core
performs no arithmetic on them, so they are carried as plain `Int`s. -/
structure OVERLAPPED where
  foo : Int
  bar : Int
  deriving DecidableEq, Repr

/-- `Default::default()` for `OVERLAPPED`: both fields zero. -/
def OVERLAPPED.dflt : OVERLAPPED := ⟨0, 0⟩

/-- The closed universe of concrete `EventHandler` implementors in the
repository (src/src/main.rs): `AfdPoll { bits: u32 }` and
`PipeRead { text: &'static str }`. The handler's own `EventState` field
lives in the heap cell at the handler's anchor address rather than inside
this value, which breaks the ownership cycle for the embedding; `bits` is a
`u32` value (no arithmetic is ever performed on it). -/
inductive EvHandler where
  | afdPoll (bits : Nat)
  | pipeRead (text : String)
  deriving DecidableEq, Repr

/-- Stand-in for `std::any::TypeId` over the closed handler universe. -/
inductive HTypeId where
  | afdPollId
  | pipeReadId
  deriving DecidableEq, Repr

/-- `(*handler).type_id()` over the closed handler universe. -/
def EvHandler.typeId : EvHandler → HTypeId
  | EvHandler.afdPoll _ => HTypeId.afdPollId
  | EvHandler.pipeRead _ => HTypeId.pipeReadId

/-- Embedding of `EventState` (src/src/iocp.rs lines 13-17): the optional
ownership slot for a boxed polymorphic handler, plus the embedded
`OVERLAPPED` record. -/
structure EventState where
  event_handler : Option EvHandler
  overlapped : OVERLAPPED
  deriving DecidableEq, Repr

/-- Embedding of `EventState::new` = `Default::default()`: empty slot,
default-initialised record. -/
def EventState.new : EventState :=
  EventState.mk none OVERLAPPED.dflt

/-- The heap of live anchors: anchor base address ↦ `EventState` value.
A cell models the `EventState` field inside a live boxed handler. -/
def Heap : Type := Nat → Option EventState

/-- Store a new `EventState` value at anchor address `a`. -/
def Heap.update (h : Heap) (a : Nat) (s : EventState) : Heap :=
  fun b => if b = a then some s else h b

/-- World state threaded through the operations: the anchor heap plus the
log of handlers whose `complete()` body has been invoked. -/
structure World where
  heap : Heap
  completions : List EvHandler

theorem Heap.update_self (h : Heap) (a : Nat) (s : EventState) :
    Heap.update h a s a = some s := by
  unfold Heap.update
  rw [if_pos rfl]

theorem Heap.update_other (h : Heap) (a b : Nat) (s : EventState)
    (hne : b ≠ a) : Heap.update h a s b = h b := by
  unfold Heap.update
  rw [if_neg hne]

/-- Embedding of `EventState::as_overlapped` (src/src/iocp.rs lines 29-32):
the bare address of the `overlapped` field of the anchor at base address
`a`, i.e. `a` plus the record field's layout offset. -/
def as_overlapped (L : TypeLayout) (a : Nat) : Nat :=
  a + L.fieldOff

/-- Embedding of `EventState::from_overlapped` (src/src/iocp.rs lines
34-39): recover the anchor's base address from the record address via
`container_of_mut`, which delegates to `container_of_ptr`. -/
def from_overlapped (L : TypeLayout) (addr : Nat) : Except String Nat :=
  container_of_ptr L addr

/-- Embedding of `EventState::embed_event_handler` (src/src/iocp.rs lines
45-53): look up the handler's own anchor (`event_handler.state()` — the
cell must exist, being a field of the live boxed handler), assert the
ownership slot is empty, move the handler into the slot, and return the
bare record address `as_overlapped`. -/
def embed_event_handler (L : TypeLayout) (w : World) (a : Nat)
    (h : EvHandler) : Except String (World × Nat) :=
  match w.heap a with
  | none => Except.error "anchor cell not live"
  | some st =>
    match st.event_handler with
    | some _ => Except.error "assertion failed: state.event_handler.is_none()"
    | none =>
      Except.ok
        (World.mk (Heap.update w.heap a (EventState.mk (some h) st.overlapped))
          w.completions,
         as_overlapped L a)

/-- Embedding of `EventState::extract_event_handler` (src/src/iocp.rs lines
58-63): recover the anchor from the record address, `take()` the handler
out of the ownership slot (`unwrap` panics when the slot is already empty)
and return it, leaving the slot empty. -/
def extract_event_handler (L : TypeLayout) (w : World) (addr : Nat) :
    Except String (World × EvHandler) :=
  match from_overlapped L addr with
  | Except.error e => Except.error e
  | Except.ok a =>
    match w.heap a with
    | none => Except.error "anchor cell not live"
    | some st =>
      match st.event_handler with
      | none => Except.error "called Option::unwrap() on a None value"
      | some h =>
        Except.ok
          (World.mk (Heap.update w.heap a (EventState.mk none st.overlapped))
            w.completions,
           h)

/-- Embedding of `EventState::downcast_event_handler` (src/src/iocp.rs
lines 65-72): assert the erased handler's runtime `TypeId` equals the
target type `t`, then reinterpret the box at type `t` (in the embedding the
value itself is returned, now known to carry tag `t`). -/
def downcast_event_handler (t : HTypeId) (h : EvHandler) :
    Except String EvHandler :=
  if h.typeId = t then Except.ok h
  else Except.error "assertion failed: (*event_handler).type_id() == TypeId::of::<T>()"

/-- Embedding of the hand-off guard `Dispatch<T>` (src/src/iocp.rs lines
122-125): the optional bare record address, plus the `PhantomData<T>`
compile-time tag carried as the concrete handler type's `TypeId`. -/
structure Dispatch where
  overlapped : Option Nat
  tag : HTypeId
  deriving DecidableEq, Repr

/-- Embedding of `Dispatch::new` (src/src/iocp.rs lines 132-137). -/
def Dispatch.new (t : HTypeId) (addr : Nat) : Dispatch :=
  Dispatch.mk (some addr) t

/-- Embedding of `EventState::dispatch::<T>` (src/src/iocp.rs lines 81-87),
also reachable as the sugar `EventDispatch::dispatch` (lines 175-186):
embed the handler in its own anchor at base address `a` and wrap the
returned record address in a fresh guard tagged with the handler's
concrete type. -/
def dispatch (L : TypeLayout) (w : World) (a : Nat) (h : EvHandler) :
    Except String (World × Dispatch) :=
  match embed_event_handler L w a h with
  | Except.error e => Except.error e
  | Except.ok r => Except.ok (r.1, Dispatch.new h.typeId r.2)

/-- Embedding of `EventState::undispatch::<T>` (src/src/iocp.rs lines
92-99): extract the handler from the record address, then narrow it back
to the concrete type `t`. -/
def undispatch (L : TypeLayout) (t : HTypeId) (w : World) (addr : Nat) :
    Except String (World × EvHandler) :=
  match extract_event_handler L w addr with
  | Except.error e => Except.error e
  | Except.ok r =>
    match downcast_event_handler t r.2 with
    | Except.error e => Except.error e
    | Except.ok h => Except.ok (r.1, h)

/-- Embedding of `EventState::complete` (src/src/iocp.rs lines 102-105):
extract the handler from the record address and invoke `handler.complete()`,
modelled by appending the consumed handler to the world's completion log. -/
def complete (L : TypeLayout) (w : World) (addr : Nat) :
    Except String World :=
  match extract_event_handler L w addr with
  | Except.error e => Except.error e
  | Except.ok r => Except.ok (World.mk r.1.heap (r.1.completions ++ [r.2]))

/-- Embedding of `Dispatch::pending` (src/src/iocp.rs lines 139-144):
`self.overlapped.take().unwrap()` — fatal when the address slot is already
empty; on success the guard's slot is left empty (the consumed guard then
drops without panicking). -/
def Dispatch.pending (d : Dispatch) : Except String Dispatch :=
  match d.overlapped with
  | none => Except.error "called Option::unwrap() on a None value"
  | some _ => Except.ok (Dispatch.mk none d.tag)

/-- Embedding of `Dispatch::failed` (src/src/iocp.rs lines 146-149):
`self.overlapped.take().unwrap()` then `EventState::undispatch`; returns
the recovered concrete handler together with the spent guard. -/
def Dispatch.failed (L : TypeLayout) (w : World) (d : Dispatch) :
    Except String (World × EvHandler × Dispatch) :=
  match d.overlapped with
  | none => Except.error "called Option::unwrap() on a None value"
  | some addr =>
    match undispatch L d.tag w addr with
    | Except.error e => Except.error e
    | Except.ok r => Except.ok (r.1, r.2, Dispatch.mk none d.tag)

/-- Embedding of `Dispatch::overlapped` (src/src/iocp.rs lines 151-153):
`self.overlapped.unwrap().as_ptr()` — a read through `&mut self` that never
clears the slot; fatal only if the slot is empty (statically unreachable in
the Rust source, where a resolved guard has been moved away). -/
def Dispatch.overlappedPtr (d : Dispatch) : Except String Nat :=
  match d.overlapped with
  | none => Except.error "called Option::unwrap() on a None value"
  | some addr => Except.ok addr

/-- Embedding of `impl Drop for Dispatch` (src/src/iocp.rs lines 155-161):
destroying a guard whose address slot is still occupied panics; destroying
a resolved guard does nothing. -/
def Dispatch.dropGuard (d : Dispatch) : Except String Unit :=
  match d.overlapped with
  | some _ =>
    Except.error "Either Dispatch::pending() or Dispatch::failed() must be called after dispatching an EventState."
  | none => Except.ok ()

/-- Dispatch a list of (anchor address, handler) pairs, resolving each
guard as pending immediately, as the demonstration program does for its
succeeded operations (src/src/main.rs). -/
def dispatchAllPending (L : TypeLayout) (w : World) :
    List (Nat × EvHandler) → Except String World
  | [] => Except.ok w
  | p :: rest =>
    match dispatch L w p.1 p.2 with
    | Except.error e => Except.error e
    | Except.ok r =>
      match Dispatch.pending r.2 with
      | Except.error e => Except.error e
      | Except.ok _ => dispatchAllPending L r.1 rest

/-- Run `EventState::complete` on a list of record addresses in order, as
the demonstration program's final loop does (src/src/main.rs). -/
def completeAll (L : TypeLayout) (w : World) :
    List Nat → Except String World
  | [] => Except.ok w
  | addr :: rest =>
    match complete L w addr with
    | Except.error e => Except.error e
    | Except.ok w2 => completeAll L w2 rest

/-- Concrete layout used by witnesses: an anchor of size 32 and alignment 8
holding its record (size 16) at byte offset 16; the member range fits the
container range. -/
def CL : TypeLayout := TypeLayout.mk 32 16 16 8

/-- Concrete witness heap: live empty anchors at base addresses 64 and 128. -/
def demoHeap : Heap :=
  fun n =>
    if n = 64 then some EventState.new
    else if n = 128 then some EventState.new
    else none

/-- Concrete witness world: the demo heap and an empty completion log. -/
def demoWorld : World := World.mk demoHeap []

theorem embed_ok (L : TypeLayout) (w : World) (a : Nat) (h : EvHandler)
    (st : EventState) (hc : w.heap a = some st)
    (he : st.event_handler = none) :
    embed_event_handler L w a h =
      Except.ok
        (World.mk (Heap.update w.heap a (EventState.mk (some h) st.overlapped))
          w.completions,
         as_overlapped L a) := by
  simp only [embed_event_handler, hc, he]

theorem embed_ok_inv (L : TypeLayout) (w : World) (a : Nat) (h : EvHandler)
    (w1 : World) (addr : Nat)
    (hd : embed_event_handler L w a h = Except.ok (w1, addr)) :
    ∃ st, w.heap a = some st ∧ st.event_handler = none ∧
      addr = as_overlapped L a ∧
      w1 = World.mk
        (Heap.update w.heap a (EventState.mk (some h) st.overlapped))
        w.completions := by
  cases hc : w.heap a with
  | none =>
    simp only [embed_event_handler, hc] at hd
    exact Except.noConfusion hd
  | some st =>
    cases he : st.event_handler with
    | some h0 =>
      simp only [embed_event_handler, hc, he] at hd
      exact Except.noConfusion hd
    | none =>
      simp only [embed_event_handler, hc, he, Except.ok.injEq,
        Prod.mk.injEq] at hd
      exact ⟨st, rfl, he, hd.2.symm, hd.1.symm⟩

theorem dispatch_ok_inv (L : TypeLayout) (w : World) (a : Nat)
    (h : EvHandler) (w1 : World) (d : Dispatch)
    (hd : dispatch L w a h = Except.ok (w1, d)) :
    ∃ st, w.heap a = some st ∧ st.event_handler = none ∧
      d = Dispatch.mk (some (as_overlapped L a)) h.typeId ∧
      w1 = World.mk
        (Heap.update w.heap a (EventState.mk (some h) st.overlapped))
        w.completions := by
  cases hemb : embed_event_handler L w a h with
  | error e =>
    simp only [dispatch, hemb] at hd
    exact Except.noConfusion hd
  | ok r =>
    obtain ⟨st, hc, he, haddr, hw⟩ :=
      embed_ok_inv L w a h r.1 r.2 (by rw [hemb])
    simp only [dispatch, hemb, Except.ok.injEq, Prod.mk.injEq] at hd
    refine ⟨st, hc, he, ?_, ?_⟩
    · rw [← hd.2, haddr]
      rfl
    · rw [← hd.1, hw]

theorem extract_ok (L : TypeLayout) (w : World) (a addr : Nat)
    (st : EventState) (h : EvHandler)
    (hro : from_overlapped L addr = Except.ok a)
    (hc : w.heap a = some st) (he : st.event_handler = some h) :
    extract_event_handler L w addr =
      Except.ok
        (World.mk (Heap.update w.heap a (EventState.mk none st.overlapped))
          w.completions,
         h) := by
  simp only [extract_event_handler, hro, hc, he]

theorem extract_empty_fatal (L : TypeLayout) (w : World) (a addr : Nat)
    (st : EventState)
    (hro : from_overlapped L addr = Except.ok a)
    (hc : w.heap a = some st) (he : st.event_handler = none) :
    extract_event_handler L w addr =
      Except.error "called Option::unwrap() on a None value" := by
  simp only [extract_event_handler, hro, hc, he]

theorem extract_ok_inv (L : TypeLayout) (w : World) (addr : Nat)
    (w1 : World) (h : EvHandler)
    (hd : extract_event_handler L w addr = Except.ok (w1, h)) :
    ∃ a st, from_overlapped L addr = Except.ok a ∧
      w.heap a = some st ∧ st.event_handler = some h ∧
      w1 = World.mk
        (Heap.update w.heap a (EventState.mk none st.overlapped))
        w.completions := by
  cases hro : from_overlapped L addr with
  | error e =>
    simp only [extract_event_handler, hro] at hd
    exact Except.noConfusion hd
  | ok a =>
    cases hc : w.heap a with
    | none =>
      simp only [extract_event_handler, hro, hc] at hd
      exact Except.noConfusion hd
    | some st =>
      cases he : st.event_handler with
      | none =>
        simp only [extract_event_handler, hro, hc, he] at hd
        exact Except.noConfusion hd
      | some h0 =>
        simp only [extract_event_handler, hro, hc, he, Except.ok.injEq,
          Prod.mk.injEq] at hd
        exact ⟨a, st, rfl, hc, by rw [he, hd.2], hd.1.symm⟩

/-- Claim C5: embedding requires an Empty anchor. Dispatching (or directly
embedding) into an anchor whose ownership slot is occupied hits the fatal
`assert!(state.event_handler.is_none())`; on an empty slot, `embed` moves
the handler into the slot and returns the bare address of the embedded
completion record. -/
theorem C5_embed_requires_empty (L : TypeLayout) (w : World) (a : Nat)
    (h : EvHandler) (st : EventState) (hc : w.heap a = some st) :
    (∀ h0, st.event_handler = some h0 →
      embed_event_handler L w a h =
        Except.error "assertion failed: state.event_handler.is_none()" ∧
      dispatch L w a h =
        Except.error "assertion failed: state.event_handler.is_none()") ∧
    (st.event_handler = none →
      embed_event_handler L w a h =
        Except.ok
          (World.mk
            (Heap.update w.heap a (EventState.mk (some h) st.overlapped))
            w.completions,
           as_overlapped L a)) := by
  constructor
  · intro h0 he
    have hemb : embed_event_handler L w a h =
        Except.error "assertion failed: state.event_handler.is_none()" := by
      simp only [embed_event_handler, hc, he]
    refine ⟨hemb, ?_⟩
    simp only [dispatch, hemb]
  · intro he
    exact embed_ok L w a h st hc he

theorem C5_witness :
    demoHeap 64 = some EventState.new ∧
    embed_event_handler CL demoWorld 64 (EvHandler.afdPoll 22) =
      Except.ok
        (World.mk
          (Heap.update demoWorld.heap 64
            (EventState.mk (some (EvHandler.afdPoll 22)) OVERLAPPED.dflt))
          [],
         80) :=
  ⟨rfl,
   (C5_embed_requires_empty CL demoWorld 64 (EvHandler.afdPoll 22)
      EventState.new rfl).2 rfl⟩

/-- Claim C9: `Dispatch::overlapped` is read-only with respect to the
guard's state: it is a pure projection of the guard (so repeated calls
return the same value and the guard is not consumed), it returns exactly
the bare record address that `embed` produced for this dispatch, and a
resolution still succeeds after calling it. -/
theorem C9_record_address_read_only (L : TypeLayout) (w : World) (a : Nat)
    (h : EvHandler) (w1 : World) (d : Dispatch)
    (hd : dispatch L w a h = Except.ok (w1, d)) :
    Dispatch.overlappedPtr d = Except.ok (as_overlapped L a) ∧
    (∃ d1, Dispatch.pending d = Except.ok d1) := by
  obtain ⟨st, hc, he, hdisp, hw⟩ := dispatch_ok_inv L w a h w1 d hd
  subst hdisp
  exact ⟨rfl, ⟨Dispatch.mk none h.typeId, rfl⟩⟩

theorem C9_witness :
    (∃ w1 d, dispatch CL demoWorld 64 (EvHandler.pipeRead "foo") =
       Except.ok (w1, d) ∧
     Dispatch.overlappedPtr d = Except.ok (as_overlapped CL 64) ∧
     (∃ d1, Dispatch.pending d = Except.ok d1)) := by
  refine ⟨World.mk
      (Heap.update demoWorld.heap 64
        (EventState.mk (some (EvHandler.pipeRead "foo")) OVERLAPPED.dflt))
      [],
    Dispatch.mk (some 80) HTypeId.pipeReadId, rfl, ?_⟩
  exact C9_record_address_read_only CL demoWorld 64 (EvHandler.pipeRead "foo")
    _ _ rfl

/-- Claim C1: guard linearity. A guard produced by dispatch panics if
destroyed unresolved; `pending` consumes it (afterwards destruction is a
silent no-op and any second resolution is fatal); a successful `failed`
likewise consumes it. Exactly one resolution may ever run. -/
theorem C1_guard_linear (L : TypeLayout) (w : World) (a : Nat)
    (h : EvHandler) (w1 : World) (d : Dispatch)
    (hd : dispatch L w a h = Except.ok (w1, d)) :
    isFatal (Dispatch.dropGuard d) = true ∧
    (∃ d1, Dispatch.pending d = Except.ok d1 ∧
      Dispatch.dropGuard d1 = Except.ok () ∧
      isFatal (Dispatch.pending d1) = true ∧
      (∀ w2, isFatal (Dispatch.failed L w2 d1) = true)) ∧
    (∀ w2 w3 h2 d2, Dispatch.failed L w2 d = Except.ok (w3, h2, d2) →
      Dispatch.dropGuard d2 = Except.ok () ∧
      isFatal (Dispatch.pending d2) = true ∧
      (∀ w4, isFatal (Dispatch.failed L w4 d2) = true)) := by
  obtain ⟨st, hc, he, hdisp, hw⟩ := dispatch_ok_inv L w a h w1 d hd
  subst hdisp
  refine ⟨rfl, ⟨Dispatch.mk none h.typeId, rfl, rfl, rfl, fun w2 => rfl⟩, ?_⟩
  intro w2 w3 h2 d2 hfail
  cases hu : undispatch L (Dispatch.mk (some (as_overlapped L a)) h.typeId).tag
      w2 (as_overlapped L a) with
  | error e =>
    simp only [Dispatch.failed, hu] at hfail
    exact Except.noConfusion hfail
  | ok r =>
    simp only [Dispatch.failed, hu, Except.ok.injEq, Prod.mk.injEq] at hfail
    have hd2 : d2 = Dispatch.mk none h.typeId := hfail.2.2.symm
    subst hd2
    exact ⟨rfl, rfl, fun w4 => rfl⟩

theorem C1_witness :
    isFatal (Dispatch.dropGuard (Dispatch.mk (some 80) HTypeId.pipeReadId)) =
      true ∧
    (∃ d1, Dispatch.pending (Dispatch.mk (some 80) HTypeId.pipeReadId) =
        Except.ok d1 ∧
      Dispatch.dropGuard d1 = Except.ok () ∧
      isFatal (Dispatch.pending d1) = true ∧
      (∀ w2, isFatal (Dispatch.failed CL w2 d1) = true)) := by
  have hmain := C1_guard_linear CL demoWorld 64 (EvHandler.pipeRead "foo")
    (World.mk
      (Heap.update demoWorld.heap 64
        (EventState.mk (some (EvHandler.pipeRead "foo")) OVERLAPPED.dflt))
      [])
    (Dispatch.mk (some 80) HTypeId.pipeReadId) rfl
  exact ⟨hmain.1, hmain.2.1⟩

/-- Claim C4: the anchor state machine. Every `EventState` is in exactly
one of the two states Empty (slot `none`) / Armed (slot `some`); `new()`
yields an Empty anchor with a default-initialised record; the only
slot-occupying transition is `embed` (requiring Empty, arming exactly the
one anchor it targets) and the only slot-vacating transition is the
recovery `extract` (requiring Armed, emptying exactly the one anchor the
record address recovers, after which a second recovery in the same period
is fatal). -/
theorem C4_anchor_state_machine :
    (∀ st : EventState,
      st.event_handler = none ∨ ∃ h, st.event_handler = some h) ∧
    (∀ st : EventState,
      ¬ (st.event_handler = none ∧ ∃ h, st.event_handler = some h)) ∧
    EventState.new = EventState.mk none OVERLAPPED.dflt ∧
    (∀ L w a h w1 addr,
      embed_event_handler L w a h = Except.ok (w1, addr) →
      ∃ st, w.heap a = some st ∧ st.event_handler = none ∧
        w1.heap a = some (EventState.mk (some h) st.overlapped) ∧
        ∀ b, b ≠ a → w1.heap b = w.heap b) ∧
    (∀ L w addr w1 h,
      extract_event_handler L w addr = Except.ok (w1, h) →
      ∃ a st, from_overlapped L addr = Except.ok a ∧
        w.heap a = some st ∧ st.event_handler = some h ∧
        w1.heap a = some (EventState.mk none st.overlapped) ∧
        (∀ b, b ≠ a → w1.heap b = w.heap b) ∧
        isFatal (extract_event_handler L w1 addr) = true) := by
  refine ⟨?_, ?_, rfl, ?_, ?_⟩
  · intro st
    cases hs : st.event_handler with
    | none => exact Or.inl rfl
    | some h => exact Or.inr ⟨h, rfl⟩
  · intro st hcontra
    obtain ⟨hn, h, hs⟩ := hcontra
    rw [hn] at hs
    exact Option.noConfusion hs
  · intro L w a h w1 addr hemb
    obtain ⟨st, hc, he, haddr, hw⟩ := embed_ok_inv L w a h w1 addr hemb
    subst hw
    exact ⟨st, hc, he, Heap.update_self _ _ _,
      fun b hb => Heap.update_other _ _ _ _ hb⟩
  · intro L w addr w1 h hx
    obtain ⟨a, st, hro, hc, he, hw⟩ := extract_ok_inv L w addr w1 h hx
    subst hw
    refine ⟨a, st, hro, hc, he, Heap.update_self _ _ _,
      fun b hb => Heap.update_other _ _ _ _ hb, ?_⟩
    rw [extract_empty_fatal L _ a addr (EventState.mk none st.overlapped)
      hro (Heap.update_self _ _ _) rfl]
    rfl

theorem C4_witness :
    ∃ st, demoWorld.heap 64 = some st ∧ st.event_handler = none ∧
      (World.mk
        (Heap.update demoWorld.heap 64
          (EventState.mk (some (EvHandler.afdPoll 1234)) OVERLAPPED.dflt))
        []).heap 64 =
        some (EventState.mk (some (EvHandler.afdPoll 1234)) st.overlapped) ∧
      ∀ b, b ≠ 64 →
        (World.mk
          (Heap.update demoWorld.heap 64
            (EventState.mk (some (EvHandler.afdPoll 1234)) OVERLAPPED.dflt))
          []).heap b = demoWorld.heap b :=
  C4_anchor_state_machine.2.2.2.1 CL demoWorld 64 (EvHandler.afdPoll 1234)
    (World.mk
      (Heap.update demoWorld.heap 64
        (EventState.mk (some (EvHandler.afdPoll 1234)) OVERLAPPED.dflt))
      [])
    80 rfl

/-- Claim C6: recovery requires an Armed anchor. When the anchor recovered
from a record address has an empty slot, `extract_event_handler` — and
therefore `complete` and `Dispatch::failed`, which both extract — is fatal
(the handler-already-taken `unwrap` panic); when the slot is occupied,
extraction takes the handler out and returns the anchor to Empty. -/
theorem C6_recover_requires_armed (L : TypeLayout) (w : World) (a : Nat)
    (st : EventState) (t : HTypeId)
    (hv : L.wf) (ha : 0 < a) (hal : a % L.align = 0)
    (hc : w.heap a = some st) :
    (st.event_handler = none →
      isFatal (extract_event_handler L w (as_overlapped L a)) = true ∧
      isFatal (complete L w (as_overlapped L a)) = true ∧
      isFatal
        (Dispatch.failed L w (Dispatch.mk (some (as_overlapped L a)) t)) =
        true) ∧
    (∀ h, st.event_handler = some h →
      extract_event_handler L w (as_overlapped L a) =
        Except.ok
          (World.mk
            (Heap.update w.heap a (EventState.mk none st.overlapped))
            w.completions,
           h)) := by
  have hro : from_overlapped L (as_overlapped L a) = Except.ok a :=
    container_of_ptr_roundtrip L a hv ha hal
  constructor
  · intro he
    have hx := extract_empty_fatal L w a (as_overlapped L a) st hro hc he
    refine ⟨by rw [hx]; rfl, ?_, ?_⟩
    · simp only [complete, hx]
      rfl
    · simp only [Dispatch.failed, undispatch, hx]
      rfl
  · intro h he
    exact extract_ok L w a (as_overlapped L a) st h hro hc he

theorem C6_witness :
    isFatal (extract_event_handler CL demoWorld (as_overlapped CL 64)) =
      true ∧
    isFatal (complete CL demoWorld (as_overlapped CL 64)) = true ∧
    isFatal
      (Dispatch.failed CL demoWorld
        (Dispatch.mk (some (as_overlapped CL 64)) HTypeId.pipeReadId)) =
      true :=
  (C6_recover_requires_armed CL demoWorld 64 EventState.new
    HTypeId.pipeReadId (by decide) (by decide) (by decide) rfl).1 rfl

/-- Claim C7 counterexample: at the well-formed layout (size 16, field
offset 8, member size 8, alignment 8) and record address 8, subtracting the
offset does not go below zero (8 - 8 = 0) and the resulting container
address 0 is a multiple of the alignment, yet `container_of_ptr` is fatal:
the code asserts the strict `member_addr > member_offset`, so it also
rejects the no-underflow case `addr = offset` (null container address),
contradicting the claim that all non-underflow aligned cases return
without a fatal error. -/
theorem C7_counterexample :
    TypeLayout.wf (TypeLayout.mk 16 8 8 8) ∧
    ¬ (8 : Nat) < 8 ∧
    ((8 : Nat) - 8) % 8 = 0 ∧
    container_of_ptr (TypeLayout.mk 16 8 8 8) 8 =
      Except.error "assertion failed: member_addr > member_offset" :=
  ⟨by decide, by decide, by decide, rfl⟩

/-- Claim C7 (amended): for a well-formed layout, `container_of_ptr L addr`
returns `addr - fieldOff` and is non-fatal exactly when `fieldOff < addr`
(strict: the code also rejects `addr = fieldOff`, whose recovered container
address would be null, not only the below-zero underflow cases) and the
recovered container address is a multiple of the alignment; it is fatal
when `addr ≤ fieldOff`, and fatal when the recovered address is
misaligned. -/
theorem C7_recover_from_field_address (L : TypeLayout) (addr : Nat)
    (hv : L.wf) :
    (L.fieldOff < addr ∧ (addr - L.fieldOff) % L.align = 0 →
      container_of_ptr L addr = Except.ok (addr - L.fieldOff)) ∧
    (¬ L.fieldOff < addr → isFatal (container_of_ptr L addr) = true) ∧
    ((addr - L.fieldOff) % L.align ≠ 0 →
      isFatal (container_of_ptr L addr) = true) := by
  have hmo := member_offset_ok L hv
  refine ⟨?_, ?_, ?_⟩
  · intro hok
    simp only [container_of_ptr, hmo]
    rw [if_pos hok.1, if_pos hok.2]
  · intro hlt
    simp only [container_of_ptr, hmo]
    rw [if_neg hlt]
    rfl
  · intro hmis
    simp only [container_of_ptr, hmo]
    by_cases hlt : L.fieldOff < addr
    · rw [if_pos hlt, if_neg hmis]
      rfl
    · rw [if_neg hlt]
      rfl

theorem C7_witness :
    TypeLayout.wf CL ∧
    (CL.fieldOff < 64 ∧ (64 - CL.fieldOff) % CL.align = 0) ∧
    container_of_ptr CL 64 = Except.ok (64 - CL.fieldOff) :=
  ⟨by decide, by decide,
   (C7_recover_from_field_address CL 64 (by decide)).1 (by decide)⟩

/-- Claim C8: `member_offset` is a pure function of the two types' layout
data — so repeated calls return the same value — and when it returns, the
value is the byte offset of the record field within the anchor's layout;
it is fatal exactly when the record's address range does not lie fully
within the anchor's address range (with the dummy container at
`NonNull::dangling()`, the low bound always holds and the high bound is
`fieldOff + memberSize ≤ size`). -/
theorem C8_compute_offset_stable (L : TypeLayout) :
    ((∃ v, member_offset L = Except.ok v) ↔
      L.fieldOff + L.memberSize ≤ L.size) ∧
    (∀ v, member_offset L = Except.ok v → v = L.fieldOff) ∧
    (¬ L.fieldOff + L.memberSize ≤ L.size →
      isFatal (member_offset L) = true) := by
  by_cases hv : L.fieldOff + L.memberSize ≤ L.size
  · have hmo := member_offset_ok L hv
    refine ⟨⟨fun _ => hv, fun _ => ⟨L.fieldOff, hmo⟩⟩, ?_, fun hn => absurd hv hn⟩
    intro v hvv
    rw [hmo] at hvv
    exact (Except.ok.injEq _ _ ▸ hvv).symm
  · have herr : member_offset L =
        Except.error "assertion failed: container_end_addr >= member_end_addr" := by
      unfold member_offset
      rw [if_pos (Nat.le_add_right _ _), if_neg (by omega)]
    refine ⟨⟨?_, fun hle => absurd hle hv⟩, ?_, fun _ => by rw [herr]; rfl⟩
    · intro hex
      obtain ⟨v, hvv⟩ := hex
      rw [herr] at hvv
      exact Except.noConfusion hvv
    · intro v hvv
      rw [herr] at hvv
      exact Except.noConfusion hvv

theorem C8_witness :
    (16 : Nat) = CL.fieldOff ∧ (∃ v, member_offset CL = Except.ok v) :=
  ⟨(C8_compute_offset_stable CL).2.1 16 rfl,
   (C8_compute_offset_stable CL).1.mpr (by decide)⟩

theorem downcast_self (h : EvHandler) :
    downcast_event_handler (EvHandler.typeId h) h = Except.ok h := by
  unfold downcast_event_handler
  rw [if_pos rfl]

theorem failed_after_dispatch (L : TypeLayout) (w : World) (a : Nat)
    (h : EvHandler) (w1 : World) (d : Dispatch)
    (hv : L.wf) (ha : 0 < a) (hal : a % L.align = 0)
    (hd : dispatch L w a h = Except.ok (w1, d)) :
    ∃ st, w.heap a = some st ∧ st.event_handler = none ∧
      Dispatch.failed L w1 d =
        Except.ok
          (World.mk
            (Heap.update w1.heap a (EventState.mk none st.overlapped))
            w.completions,
           h, Dispatch.mk none h.typeId) ∧
      Heap.update w1.heap a (EventState.mk none st.overlapped) a =
        some (EventState.mk none st.overlapped) ∧
      (∀ b, b ≠ a →
        Heap.update w1.heap a (EventState.mk none st.overlapped) b =
          w.heap b) := by
  obtain ⟨st, hc, he, hdisp, hw⟩ := dispatch_ok_inv L w a h w1 d hd
  subst hdisp
  subst hw
  have hro := container_of_ptr_roundtrip L a hv ha hal
  have hcell :
      (World.mk
        (Heap.update w.heap a (EventState.mk (some h) st.overlapped))
        w.completions).heap a =
        some (EventState.mk (some h) st.overlapped) :=
    Heap.update_self _ _ _
  have hx := extract_ok L
    (World.mk (Heap.update w.heap a (EventState.mk (some h) st.overlapped))
      w.completions)
    a (as_overlapped L a) (EventState.mk (some h) st.overlapped) h
    hro hcell rfl
  refine ⟨st, hc, he, ?_, Heap.update_self _ _ _, ?_⟩
  · simp only [Dispatch.failed, undispatch, hx, downcast_self h]
  · intro b hb
    rw [Heap.update_other _ _ _ _ hb]
    exact Heap.update_other _ _ _ _ hb

/-- Claim C3: round-trip through `failed()`. For a dispatched handler of
concrete type `T = h.typeId`, `Dispatch::failed` narrows the recovered
erased handler back to `T` by runtime `TypeId` comparison (a mismatching
tag is fatal, the matching tag is the identity) and returns exactly the
handler the dispatch embedded — payload fields unchanged — while the
completion log stays untouched (its completion logic never ran). -/
theorem C3_failed_roundtrip (L : TypeLayout) (w : World) (a : Nat)
    (h : EvHandler) (w1 : World) (d : Dispatch)
    (hv : L.wf) (ha : 0 < a) (hal : a % L.align = 0)
    (hd : dispatch L w a h = Except.ok (w1, d)) :
    (∃ w2, Dispatch.failed L w1 d =
        Except.ok (w2, h, Dispatch.mk none h.typeId) ∧
      w2.completions = w.completions ∧
      (∀ b, b ≠ a → w2.heap b = w.heap b) ∧
      (∀ st, w.heap a = some st →
        w2.heap a = some (EventState.mk none st.overlapped))) ∧
    (∀ t h2, EvHandler.typeId h2 ≠ t →
      isFatal (downcast_event_handler t h2) = true) ∧
    (∀ h2, downcast_event_handler (EvHandler.typeId h2) h2 =
      Except.ok h2) := by
  obtain ⟨st, hc, he, hfail, hcell, hframe⟩ :=
    failed_after_dispatch L w a h w1 d hv ha hal hd
  refine ⟨⟨_, hfail, rfl, hframe, ?_⟩, ?_, downcast_self⟩
  · intro st2 hc2
    rw [hc] at hc2
    cases hc2
    exact hcell
  · intro t h2 hne
    unfold downcast_event_handler
    rw [if_neg hne]
    rfl

theorem C3_witness :
    ∃ w2,
      Dispatch.failed CL
        (World.mk
          (Heap.update demoWorld.heap 128
            (EventState.mk (some (EvHandler.afdPoll 1234)) OVERLAPPED.dflt))
          [])
        (Dispatch.mk (some 144) HTypeId.afdPollId) =
        Except.ok (w2, EvHandler.afdPoll 1234,
          Dispatch.mk none HTypeId.afdPollId) ∧
      w2.completions = demoWorld.completions ∧
      (∀ b, b ≠ 128 → w2.heap b = demoWorld.heap b) ∧
      (∀ st, demoWorld.heap 128 = some st →
        w2.heap 128 = some (EventState.mk none st.overlapped)) :=
  (C3_failed_roundtrip CL demoWorld 128 (EvHandler.afdPoll 1234)
    (World.mk
      (Heap.update demoWorld.heap 128
        (EventState.mk (some (EvHandler.afdPoll 1234)) OVERLAPPED.dflt))
      [])
    (Dispatch.mk (some 144) HTypeId.afdPollId)
    (by decide) (by decide) (by decide) rfl).1

/-- Claim C10: after `failed()` returns a handler, the handler's anchor is
back to Empty (the slot holds `none`, every other anchor untouched) and the
very same handler value satisfies dispatch's precondition again: a second
dispatch succeeds — no double-embed assertion — and yields a fresh guard
carrying the same bare record address. -/
theorem C10_redispatch_after_failed (L : TypeLayout) (w : World) (a : Nat)
    (h : EvHandler) (w1 : World) (d : Dispatch)
    (hv : L.wf) (ha : 0 < a) (hal : a % L.align = 0)
    (hd : dispatch L w a h = Except.ok (w1, d)) :
    ∃ w2, Dispatch.failed L w1 d =
        Except.ok (w2, h, Dispatch.mk none h.typeId) ∧
      (∃ st2, w2.heap a = some st2 ∧ st2.event_handler = none) ∧
      (∃ w3, dispatch L w2 a h =
        Except.ok (w3, Dispatch.mk (some (as_overlapped L a)) h.typeId)) := by
  obtain ⟨st, hc, he, hfail, hcell, hframe⟩ :=
    failed_after_dispatch L w a h w1 d hv ha hal hd
  refine ⟨_, hfail, ⟨EventState.mk none st.overlapped, hcell, rfl⟩, ?_⟩
  have hemb := embed_ok L
    (World.mk (Heap.update w1.heap a (EventState.mk none st.overlapped))
      w.completions)
    a h (EventState.mk none st.overlapped) hcell rfl
  refine ⟨World.mk
      (Heap.update
        (Heap.update w1.heap a (EventState.mk none st.overlapped)) a
        (EventState.mk (some h) st.overlapped))
      w.completions, ?_⟩
  simp only [dispatch, hemb]
  rfl

theorem C10_witness :
    ∃ w2,
      Dispatch.failed CL
        (World.mk
          (Heap.update demoWorld.heap 64
            (EventState.mk (some (EvHandler.pipeRead "retry"))
              OVERLAPPED.dflt))
          [])
        (Dispatch.mk (some 80) HTypeId.pipeReadId) =
        Except.ok (w2, EvHandler.pipeRead "retry",
          Dispatch.mk none HTypeId.pipeReadId) ∧
      (∃ st2, w2.heap 64 = some st2 ∧ st2.event_handler = none) ∧
      (∃ w3, dispatch CL w2 64 (EvHandler.pipeRead "retry") =
        Except.ok (w3,
          Dispatch.mk (some (as_overlapped CL 64)) HTypeId.pipeReadId)) :=
  C10_redispatch_after_failed CL demoWorld 64 (EvHandler.pipeRead "retry")
    (World.mk
      (Heap.update demoWorld.heap 64
        (EventState.mk (some (EvHandler.pipeRead "retry")) OVERLAPPED.dflt))
      [])
    (Dispatch.mk (some 80) HTypeId.pipeReadId)
    (by decide) (by decide) (by decide) rfl

theorem dispatchAllPending_ok (L : TypeLayout) :
    ∀ (l : List (Nat × EvHandler)) (w : World),
    (l.map Prod.fst).Nodup →
    (∀ p ∈ l, 0 < p.1 ∧ p.1 % L.align = 0 ∧
      w.heap p.1 = some EventState.new) →
    ∃ w1, dispatchAllPending L w l = Except.ok w1 ∧
      w1.completions = w.completions ∧
      (∀ p ∈ l,
        w1.heap p.1 = some (EventState.mk (some p.2) OVERLAPPED.dflt)) ∧
      (∀ b, b ∉ l.map Prod.fst → w1.heap b = w.heap b) := by
  intro l
  induction l with
  | nil =>
    intro w _ _
    exact ⟨w, rfl, rfl, fun p hp => absurd hp (List.not_mem_nil p),
      fun b _ => rfl⟩
  | cons p rest ih =>
    intro w hnd hcells
    rw [List.map_cons] at hnd
    obtain ⟨hnotin, hnd'⟩ := List.nodup_cons.mp hnd
    obtain ⟨hpos, hal, hcell⟩ := hcells p (List.mem_cons_self p rest)
    have hemb := embed_ok L w p.1 p.2 EventState.new hcell rfl
    have hdisp : dispatch L w p.1 p.2 =
        Except.ok
          (World.mk
            (Heap.update w.heap p.1
              (EventState.mk (some p.2) OVERLAPPED.dflt))
            w.completions,
           Dispatch.mk (some (as_overlapped L p.1)) p.2.typeId) := by
      simp only [dispatch, hemb]
      rfl
    have hcells' : ∀ q ∈ rest, 0 < q.1 ∧ q.1 % L.align = 0 ∧
        (World.mk
          (Heap.update w.heap p.1
            (EventState.mk (some p.2) OVERLAPPED.dflt))
          w.completions).heap q.1 = some EventState.new := by
      intro q hq
      obtain ⟨h1, h2, h3⟩ := hcells q (List.mem_cons_of_mem p hq)
      have hne : q.1 ≠ p.1 := by
        intro heq
        apply hnotin
        rw [← heq]
        exact List.mem_map_of_mem Prod.fst hq
      refine ⟨h1, h2, ?_⟩
      rw [show (World.mk
          (Heap.update w.heap p.1
            (EventState.mk (some p.2) OVERLAPPED.dflt))
          w.completions).heap q.1 =
        Heap.update w.heap p.1
          (EventState.mk (some p.2) OVERLAPPED.dflt) q.1 from rfl]
      rw [Heap.update_other _ _ _ _ hne]
      exact h3
    obtain ⟨w1, hrun, hcompl, harmed, hframe⟩ := ih _ hnd' hcells'
    refine ⟨w1, ?_, ?_, ?_, ?_⟩
    · simp only [dispatchAllPending, hdisp, Dispatch.pending]
      exact hrun
    · rw [hcompl]
    · intro q hq
      cases List.mem_cons.mp hq with
      | inr hq' => exact harmed q hq'
      | inl hq' =>
        subst hq'
        rw [hframe q.1 hnotin]
        exact Heap.update_self _ _ _
    · intro b hb
      rw [List.map_cons] at hb
      have hb1 : b ≠ p.1 := by
        intro heq
        apply hb
        rw [heq]
        exact List.mem_cons_self _ _
      have hb2 : b ∉ rest.map Prod.fst :=
        fun hmem => hb (List.mem_cons_of_mem _ hmem)
      rw [hframe b hb2]
      exact Heap.update_other _ _ _ _ hb1

theorem completeAll_ok (L : TypeLayout) (hv : L.wf) :
    ∀ (l : List (Nat × EvHandler)) (w : World),
    (l.map Prod.fst).Nodup →
    (∀ p ∈ l, 0 < p.1 ∧ p.1 % L.align = 0 ∧
      w.heap p.1 = some (EventState.mk (some p.2) OVERLAPPED.dflt)) →
    ∃ w2, completeAll L w (l.map (fun p => as_overlapped L p.1)) =
        Except.ok w2 ∧
      w2.completions = w.completions ++ l.map Prod.snd ∧
      (∀ p ∈ l, w2.heap p.1 = some EventState.new) ∧
      (∀ b, b ∉ l.map Prod.fst → w2.heap b = w.heap b) := by
  intro l
  induction l with
  | nil =>
    intro w _ _
    exact ⟨w, rfl, by simp, fun p hp => absurd hp (List.not_mem_nil p),
      fun b _ => rfl⟩
  | cons p rest ih =>
    intro w hnd hcells
    rw [List.map_cons] at hnd
    obtain ⟨hnotin, hnd'⟩ := List.nodup_cons.mp hnd
    obtain ⟨hpos, hal, hcell⟩ := hcells p (List.mem_cons_self p rest)
    have hro := container_of_ptr_roundtrip L p.1 hv hpos hal
    have hx := extract_ok L w p.1 (as_overlapped L p.1)
      (EventState.mk (some p.2) OVERLAPPED.dflt) p.2 hro hcell rfl
    have hcomp : complete L w (as_overlapped L p.1) =
        Except.ok
          (World.mk (Heap.update w.heap p.1 EventState.new)
            (w.completions ++ [p.2])) := by
      simp only [complete, hx]
      rfl
    have hcells' : ∀ q ∈ rest, 0 < q.1 ∧ q.1 % L.align = 0 ∧
        (World.mk (Heap.update w.heap p.1 EventState.new)
          (w.completions ++ [p.2])).heap q.1 =
          some (EventState.mk (some q.2) OVERLAPPED.dflt) := by
      intro q hq
      obtain ⟨h1, h2, h3⟩ := hcells q (List.mem_cons_of_mem p hq)
      have hne : q.1 ≠ p.1 := by
        intro heq
        apply hnotin
        rw [← heq]
        exact List.mem_map_of_mem Prod.fst hq
      refine ⟨h1, h2, ?_⟩
      rw [show (World.mk (Heap.update w.heap p.1 EventState.new)
          (w.completions ++ [p.2])).heap q.1 =
        Heap.update w.heap p.1 EventState.new q.1 from rfl]
      rw [Heap.update_other _ _ _ _ hne]
      exact h3
    obtain ⟨w2, hrun, hcompl, hempt, hframe⟩ := ih _ hnd' hcells'
    refine ⟨w2, ?_, ?_, ?_, ?_⟩
    · simp only [List.map_cons, completeAll, hcomp]
      exact hrun
    · rw [hcompl]
      simp [List.append_assoc]
    · intro q hq
      cases List.mem_cons.mp hq with
      | inr hq' => exact hempt q hq'
      | inl hq' =>
        subst hq'
        rw [hframe q.1 hnotin]
        exact Heap.update_self _ _ _
    · intro b hb
      rw [List.map_cons] at hb
      have hb1 : b ≠ p.1 := by
        intro heq
        apply hb
        rw [heq]
        exact List.mem_cons_self _ _
      have hb2 : b ∉ rest.map Prod.fst :=
        fun hmem => hb (List.mem_cons_of_mem _ hmem)
      rw [hframe b hb2]
      exact Heap.update_other _ _ _ _ hb1

/-- Claim C2: completion fires exactly once with the exact payload, in any
order. Dispatch a list of handlers on pairwise-distinct live empty anchors
and resolve each guard as pending; then running `complete` over the
dispatched record addresses in any permuted order succeeds, appends to the
completion log exactly each handler once — with the payload it was
constructed with, its own anchor's, regardless of order — returns every
dispatched anchor to Empty (so any further `complete` there is fatal), and
leaves every other anchor untouched. -/
theorem C2_complete_exactly_once (L : TypeLayout) (w : World)
    (l l2 : List (Nat × EvHandler))
    (hv : L.wf)
    (hnd : (l.map Prod.fst).Nodup)
    (hcells : ∀ p ∈ l, 0 < p.1 ∧ p.1 % L.align = 0 ∧
      w.heap p.1 = some EventState.new)
    (hperm : l.Perm l2) :
    ∃ w1 w2,
      dispatchAllPending L w l = Except.ok w1 ∧
      completeAll L w1 (l2.map (fun p => as_overlapped L p.1)) =
        Except.ok w2 ∧
      w2.completions = w.completions ++ l2.map Prod.snd ∧
      (∀ p ∈ l, w2.heap p.1 = some EventState.new ∧
        isFatal (complete L w2 (as_overlapped L p.1)) = true) ∧
      (∀ b, b ∉ l.map Prod.fst → w2.heap b = w.heap b) := by
  obtain ⟨w1, hrun, hcompl1, harmed, hframe1⟩ :=
    dispatchAllPending_ok L l w hnd hcells
  have hnd2 : (l2.map Prod.fst).Nodup :=
    ((hperm.map Prod.fst).nodup_iff).mp hnd
  have hcells2 : ∀ p ∈ l2, 0 < p.1 ∧ p.1 % L.align = 0 ∧
      w1.heap p.1 = some (EventState.mk (some p.2) OVERLAPPED.dflt) := by
    intro p hp
    have hp' : p ∈ l := hperm.mem_iff.mpr hp
    obtain ⟨h1, h2, _⟩ := hcells p hp'
    exact ⟨h1, h2, harmed p hp'⟩
  obtain ⟨w2, hrun2, hcompl2, hempt, hframe2⟩ :=
    completeAll_ok L hv l2 w1 hnd2 hcells2
  refine ⟨w1, w2, hrun, hrun2, ?_, ?_, ?_⟩
  · rw [hcompl2, hcompl1]
  · intro p hp
    have hp2 : p ∈ l2 := hperm.mem_iff.mp hp
    have hcell := hempt p hp2
    refine ⟨hcell, ?_⟩
    obtain ⟨h1, h2, _⟩ := hcells p hp
    have hro := container_of_ptr_roundtrip L p.1 hv h1 h2
    have hx := extract_empty_fatal L w2 p.1 (as_overlapped L p.1)
      EventState.new hro hcell rfl
    simp only [complete, hx]
    rfl
  · intro b hb
    have hb2 : b ∉ l2.map Prod.fst := by
      intro hmem
      exact hb (((hperm.map Prod.fst).mem_iff).mpr hmem)
    rw [hframe2 b hb2]
    exact hframe1 b hb

theorem C2_witness :
    ∃ w1 w2,
      dispatchAllPending CL demoWorld
        [(64, EvHandler.pipeRead "foo"), (128, EvHandler.pipeRead "bar")] =
        Except.ok w1 ∧
      completeAll CL w1
        ([(128, EvHandler.pipeRead "bar"), (64, EvHandler.pipeRead "foo")].map
          (fun p => as_overlapped CL p.1)) =
        Except.ok w2 ∧
      w2.completions = demoWorld.completions ++
        [(128, EvHandler.pipeRead "bar"),
         (64, EvHandler.pipeRead "foo")].map Prod.snd ∧
      (∀ p ∈ [(64, EvHandler.pipeRead "foo"),
              (128, EvHandler.pipeRead "bar")],
        w2.heap p.1 = some EventState.new ∧
        isFatal (complete CL w2 (as_overlapped CL p.1)) = true) ∧
      (∀ b, b ∉ [(64, EvHandler.pipeRead "foo"),
                 (128, EvHandler.pipeRead "bar")].map Prod.fst →
        w2.heap b = demoWorld.heap b) :=
  C2_complete_exactly_once CL demoWorld
    [(64, EvHandler.pipeRead "foo"), (128, EvHandler.pipeRead "bar")]
    [(128, EvHandler.pipeRead "bar"), (64, EvHandler.pipeRead "foo")]
    (by decide) (by decide) (by decide)
    (List.Perm.swap (128, EvHandler.pipeRead "bar")
      (64, EvHandler.pipeRead "foo") [])

end IocpTraits
